import Mathlib

set_option maxHeartbeats 1000000

namespace Odi

/-! Shallow embedding of the odi code generators (cmd/di1 and cmd/di2).
Pure computations (validation, defaulting, import dedup/merge/sort, template
rendering) are translated directly; filesystem interaction is represented by
explicit environment records whose fields are the results the corresponding
system calls would return. -/

/-- One Go import clause: optional alias (Name) plus import path
(type GoImport in cmd/di2/main.go). -/
structure GoImport where
  Name : String
  Path : String
deriving DecidableEq, Repr

/-- The (path, alias) key under which dedupeAndSortImports and mergeImports
deduplicate (the local key struct in cmd/di2/main.go). -/
def impKey (gi : GoImport) : String × String := (gi.Path, gi.Name)

/-- Two imports with the same (path, alias) key are the same import:
GoImport has no other fields. -/
theorem GoImport.eq_of_key {a b : GoImport} (hp : a.Path = b.Path)
    (hn : a.Name = b.Name) : a = b := by
  cases a; cases b; simp_all

/-- The comparator of the sort.Slice calls in dedupeAndSortImports and
mergeImports, as a non-strict total order: by Path, then by Name. -/
def impLe (a b : GoImport) : Prop :=
  a.Path < b.Path ∨ (a.Path = b.Path ∧ a.Name ≤ b.Name)

instance : DecidableRel impLe := fun a b =>
  inferInstanceAs (Decidable (a.Path < b.Path ∨ (a.Path = b.Path ∧ a.Name ≤ b.Name)))

instance : IsTotal GoImport impLe where
  total a b := by
    rcases lt_trichotomy a.Path b.Path with h | h | h
    · exact Or.inl (Or.inl h)
    · rcases le_total a.Name b.Name with h2 | h2
      · exact Or.inl (Or.inr ⟨h, h2⟩)
      · exact Or.inr (Or.inr ⟨h.symm, h2⟩)
    · exact Or.inr (Or.inl h)

instance : IsTrans GoImport impLe where
  trans a b c hab hbc := by
    rcases hab with h1 | ⟨e1, n1⟩
    · rcases hbc with h2 | ⟨e2, _⟩
      · exact Or.inl (h1.trans h2)
      · exact Or.inl (e2 ▸ h1)
    · rcases hbc with h2 | ⟨e2, n2⟩
      · exact Or.inl (e1 ▸ h2)
      · exact Or.inr ⟨e1.trans e2, n1.trans n2⟩

/-- Append an import to the accumulator unless its (path, alias) key is already
present: the seen-map guard shared by dedupeAndSortImports and the add closure
of mergeImports in cmd/di2/main.go. -/
def addImportIfNew (acc : List GoImport) (gi : GoImport) : List GoImport :=
  if acc.any (fun x => x.Path == gi.Path && x.Name == gi.Name) then acc
  else acc ++ [gi]

/-- First-occurrence deduplication by (path, alias) key over a whole list. -/
def dedupeImports (imps : List GoImport) : List GoImport :=
  imps.foldl addImportIfNew []

/-- The final sort of dedupeAndSortImports and mergeImports: by path, then
alias.  sort.Slice is applied to a list with pairwise-distinct keys, on which
the comparator is a strict total order, so the sorted arrangement is unique;
insertion sort computes it. -/
def sortImports (imps : List GoImport) : List GoImport :=
  List.insertionSort impLe imps

/-- mergeImports from cmd/di2/main.go: key-based union of required and
preserved imports (required added first, adding is idempotent by key),
sorted by (path, alias). -/
def mergeImports (required preserved : List GoImport) : List GoImport :=
  sortImports (dedupeImports (required ++ preserved))

/-- dedupeAndSortImports from cmd/di2/main.go. -/
def dedupeAndSortImports (imps : List GoImport) : List GoImport :=
  sortImports (dedupeImports imps)

/-! Helper lemmas about deduplication and sorting. -/

theorem mem_addImportIfNew (acc : List GoImport) (gi x : GoImport) :
    x ∈ addImportIfNew acc gi ↔ x ∈ acc ∨ x = gi := by
  unfold addImportIfNew
  by_cases h : (acc.any fun x => x.Path == gi.Path && x.Name == gi.Name) = true
  · rw [if_pos h]
    rw [List.any_eq_true] at h
    obtain ⟨y, hy, hk⟩ := h
    simp only [Bool.and_eq_true, beq_iff_eq] at hk
    have hyg : y = gi := GoImport.eq_of_key hk.1 hk.2
    constructor
    · exact Or.inl
    · rintro (hx | rfl)
      · exact hx
      · exact hyg ▸ hy
  · rw [if_neg h]
    simp only [List.mem_append, List.mem_singleton]

theorem mem_foldl_addImportIfNew (l : List GoImport) :
    ∀ acc x, x ∈ l.foldl addImportIfNew acc ↔ x ∈ acc ∨ x ∈ l := by
  induction l with
  | nil => simp
  | cons g t ih =>
      intro acc x
      simp only [List.foldl_cons, ih, mem_addImportIfNew, List.mem_cons]
      tauto

theorem mem_dedupeImports (l : List GoImport) (x : GoImport) :
    x ∈ dedupeImports l ↔ x ∈ l := by
  unfold dedupeImports
  rw [mem_foldl_addImportIfNew]
  simp

theorem pairwise_key_addImportIfNew (acc : List GoImport) (gi : GoImport)
    (h : acc.Pairwise (fun a b => impKey a ≠ impKey b)) :
    (addImportIfNew acc gi).Pairwise (fun a b => impKey a ≠ impKey b) := by
  unfold addImportIfNew
  by_cases hseen : (acc.any fun x => x.Path == gi.Path && x.Name == gi.Name) = true
  · rwa [if_pos hseen]
  · rw [if_neg hseen]
    rw [List.pairwise_append]
    refine ⟨h, List.pairwise_singleton _ _, ?_⟩
    intro x hx y hy
    simp only [List.mem_singleton] at hy
    subst hy
    rw [List.any_eq_true] at hseen
    push_neg at hseen
    have hne := hseen x hx
    intro hk
    apply hne
    simp only [Bool.and_eq_true, beq_iff_eq]
    unfold impKey at hk
    exact ⟨congrArg Prod.fst hk, congrArg Prod.snd hk⟩

theorem pairwise_key_foldl (l : List GoImport) :
    ∀ acc, acc.Pairwise (fun a b => impKey a ≠ impKey b) →
      (l.foldl addImportIfNew acc).Pairwise (fun a b => impKey a ≠ impKey b) := by
  induction l with
  | nil => intro acc h; simpa using h
  | cons g t ih =>
      intro acc h
      exact ih _ (pairwise_key_addImportIfNew acc g h)

theorem pairwise_key_dedupeImports (l : List GoImport) :
    (dedupeImports l).Pairwise (fun a b => impKey a ≠ impKey b) :=
  pairwise_key_foldl l [] (List.Pairwise.nil)

theorem sortImports_perm (l : List GoImport) : List.Perm (sortImports l) l :=
  List.perm_insertionSort impLe l

theorem pairwise_key_sortImports (l : List GoImport)
    (h : l.Pairwise (fun a b => impKey a ≠ impKey b)) :
    (sortImports l).Pairwise (fun a b => impKey a ≠ impKey b) := by
  exact ((sortImports_perm l).pairwise_iff (fun hab h2 => hab h2.symm)).mpr h

theorem sorted_sortImports (l : List GoImport) :
    List.Sorted impLe (sortImports l) :=
  List.sorted_insertionSort impLe l

theorem mergeImports_sorted (required preserved : List GoImport) :
    List.Sorted impLe (mergeImports required preserved) :=
  sorted_sortImports _

theorem mergeImports_pairwise_key (required preserved : List GoImport) :
    (mergeImports required preserved).Pairwise (fun a b => impKey a ≠ impKey b) :=
  pairwise_key_sortImports _ (pairwise_key_dedupeImports _)

theorem mem_mergeImports (required preserved : List GoImport) (x : GoImport) :
    x ∈ mergeImports required preserved ↔ x ∈ required ++ preserved := by
  unfold mergeImports
  rw [(sortImports_perm _).mem_iff, mem_dedupeImports]

/-! The spec data model of cmd/di2/main.go.  Field names follow the Go struct
fields; the Go field Type is rendered here as Typ because Type is a Lean
keyword. -/

/-- Go type Imports: the di and config import paths carried by a spec. -/
structure Imports where
  DI : String
  Config : String
deriving DecidableEq, Repr

/-- Go type ConfigSpec. -/
structure ConfigSpec where
  Enabled : Bool
  Import : String
  Typ : String
  FieldName : String
  ParamName : String
deriving DecidableEq, Repr

/-- Go type InjectPolicy. -/
structure InjectPolicy where
  OnOverwrite : String
deriving DecidableEq, Repr

/-- Go type RequiredDep. -/
structure RequiredDep where
  Name : String
  Field : String
  Typ : String
  Nilable : Bool
deriving DecidableEq, Repr

/-- Go type OptionalApply. -/
structure OptionalApply where
  Kind : String
  Name : String
deriving DecidableEq, Repr

/-- Go type OptionalDep. -/
structure OptionalDep where
  Name : String
  Typ : String
  RegistryKey : String
  Apply : OptionalApply
  DefaultExpr : String
deriving DecidableEq, Repr

/-- Go type MethodParam. -/
structure MethodParam where
  Name : String
  Typ : String
deriving DecidableEq, Repr

/-- Go type MethodReturn. -/
structure MethodReturn where
  Typ : String
deriving DecidableEq, Repr

/-- Go type MethodSpec. -/
structure MethodSpec where
  Name : String
  Params : List MethodParam
  Returns : List MethodReturn
  Requires : List String
deriving DecidableEq, Repr

/-- Go type ServiceSpec. -/
structure ServiceSpec where
  Package : String
  WrapperBase : String
  VersionSuffix : String
  ImplType : String
  Constructor : String
  Imports : Imports
  Config : ConfigSpec
  FacadeName : String
  PublicConstructorName : String
  InjectPolicy : InjectPolicy
  Cyclic : Bool
  Required : List RequiredDep
  Optional : List OptionalDep
  Methods : List MethodSpec
deriving DecidableEq, Repr

/-- One service entry of a graph root (the anonymous Services struct in
Go type GraphSpec). -/
structure GraphService where
  Var : String
  FacadeCtor : String
  FacadeType : String
  ImplType : String
deriving DecidableEq, Repr

/-- One wiring entry of a graph root (the anonymous Wiring struct in
Go type GraphSpec). -/
structure WireStep where
  To : String
  Call : String
  ArgFrom : String
deriving DecidableEq, Repr

/-- One root of Go type GraphSpec. -/
structure GraphRoot where
  Name : String
  BuildWithRegistry : Bool
  Services : List GraphService
  Wiring : List WireStep
deriving DecidableEq, Repr

/-- Go type GraphSpec. -/
structure GraphSpec where
  Package : String
  Imports : Imports
  Config : ConfigSpec
  Roots : List GraphRoot
deriving DecidableEq, Repr

/-! Deterministic ordering applied by genService (cmd/di2/main.go) to
required deps, optional deps and methods, and by genGraph to the roots,
before template rendering: sort.Slice by Name.  The templates iterate the
lists in order, so these sorted lists are the rendered orderings. -/

/-- Comparison by a String-valued key, the shape of every by-name
sort.Slice comparator in genService and genGraph. -/
def nameLe {α : Type} (f : α → String) (a b : α) : Prop := f a ≤ f b

instance {α : Type} (f : α → String) : DecidableRel (nameLe f) := fun a b =>
  inferInstanceAs (Decidable (f a ≤ f b))

instance {α : Type} (f : α → String) : IsTotal α (nameLe f) where
  total a b := le_total (f a) (f b)

instance {α : Type} (f : α → String) : IsTrans α (nameLe f) where
  trans _ _ _ hab hbc := le_trans hab hbc

/-- genService: sort.Slice of spec.Required by Name. -/
def sortRequiredDeps (l : List RequiredDep) : List RequiredDep :=
  List.insertionSort (nameLe RequiredDep.Name) l

/-- genService: sort.Slice of spec.Optional by Name. -/
def sortOptionalDeps (l : List OptionalDep) : List OptionalDep :=
  List.insertionSort (nameLe OptionalDep.Name) l

/-- genService: sort.Slice of spec.Methods by Name. -/
def sortMethods (l : List MethodSpec) : List MethodSpec :=
  List.insertionSort (nameLe MethodSpec.Name) l

/-- genGraph: sort.Slice of g.Roots by Name. -/
def sortGraphRoots (l : List GraphRoot) : List GraphRoot :=
  List.insertionSort (nameLe GraphRoot.Name) l

/-- Go strings.TrimSpace, modelled on the character list: remove leading and
trailing whitespace.  (Char.isWhitespace covers the ASCII whitespace; Go
additionally trims a few rare Unicode spaces that no string in this
development contains.) -/
def trimSpace (s : String) : String :=
  String.mk (List.rdropWhile Char.isWhitespace (s.data.dropWhile Char.isWhitespace))

theorem trimSpace_idem (s : String) : trimSpace (trimSpace s) = trimSpace s := by
  unfold trimSpace
  have hY : List.dropWhile Char.isWhitespace (s.data.dropWhile Char.isWhitespace)
      = s.data.dropWhile Char.isWhitespace :=
    List.dropWhile_idempotent Char.isWhitespace s.data
  set Y := s.data.dropWhile Char.isWhitespace with hYdef
  have hdata : (String.mk (List.rdropWhile Char.isWhitespace Y)).data
      = List.rdropWhile Char.isWhitespace Y := rfl
  rw [hdata]
  have hE : List.dropWhile Char.isWhitespace (List.rdropWhile Char.isWhitespace Y)
      = List.rdropWhile Char.isWhitespace Y := by
    rw [List.dropWhile_eq_self_iff]
    intro hl
    obtain ⟨t, ht⟩ := List.rdropWhile_prefix Char.isWhitespace (l := Y)
    have hlY : 0 < Y.length := by
      rw [← ht]
      simp only [List.length_append]
      omega
    have hget : Y.get? 0 = (List.rdropWhile Char.isWhitespace Y).get? 0 := by
      conv_lhs => rw [← ht]
      exact List.get?_append hl
    have hsome : some ((List.rdropWhile Char.isWhitespace Y).get ⟨0, hl⟩)
        = some (Y.get ⟨0, hlY⟩) := by
      rw [← List.get?_eq_get hl, ← List.get?_eq_get hlY, ← hget]
    rw [Option.some.injEq] at hsome
    rw [hsome]
    exact (List.dropWhile_eq_self_iff.mp hY) hlY
  rw [hE, List.rdropWhile_idempotent]

/-- Go strings.HasSuffix, modelled on the character list. -/
def hasSuffix (s sfx : String) : Bool :=
  sfx.data.isSuffixOf s.data

/-! Validation and defaulting of cmd/di2/main.go.  The Go code aborts through
die/panic; that is modelled as Except.error carrying the message. -/

/-- The req helper of validateServiceSpec: a field must be non-blank after
trimming. -/
def checkNonBlank (fieldName v : String) : Except String Unit :=
  if trimSpace v = "" then .error ("spec missing: " ++ fieldName) else .ok ()

/-- Body of the per-required-dep checks of validateServiceSpec. -/
def checkRequiredDep (d : RequiredDep) : Except String Unit :=
  if d.Name = "" ∨ d.Field = "" ∨ d.Typ = "" then
    .error "required dep must have name/field/type"
  else if d.Nilable = false then
    .error "required dep must set nilable=true (generator emits nil checks)"
  else .ok ()

def checkRequiredDeps : List RequiredDep → Except String Unit
  | [] => .ok ()
  | d :: rest => do
      checkRequiredDep d
      checkRequiredDeps rest

/-- Body of the per-optional-dep checks of validateServiceSpec. -/
def checkOptionalDep (o : OptionalDep) : Except String Unit :=
  if o.Name = "" ∨ o.Typ = "" ∨ o.RegistryKey = "" ∨ o.Apply.Kind = "" ∨ o.Apply.Name = "" then
    .error "optional dep must have name/type/registryKey/apply\x7bkind,name\x7d"
  else if o.Apply.Kind ≠ "setter" ∧ o.Apply.Kind ≠ "field" then
    .error "optional.apply.kind must be setter or field"
  else .ok ()

def checkOptionalDeps : List OptionalDep → Except String Unit
  | [] => .ok ()
  | o :: rest => do
      checkOptionalDep o
      checkOptionalDeps rest

def checkMethodNames : List MethodSpec → Except String Unit
  | [] => .ok ()
  | m :: rest =>
      if m.Name = "" then .error "method must have name"
      else checkMethodNames rest

/-- validateServiceSpec from cmd/di2/main.go.  Note: it performs no
uniqueness check on dependency names or fields. -/
def validateServiceSpec (s : ServiceSpec) : Except String Unit := do
  checkNonBlank "package" s.Package
  checkNonBlank "wrapperBase" s.WrapperBase
  checkNonBlank "versionSuffix" s.VersionSuffix
  checkNonBlank "implType" s.ImplType
  checkNonBlank "constructor" s.Constructor
  if s.Required.length = 0 then
    Except.error "spec required must be non-empty"
  else do
    checkRequiredDeps s.Required
    checkOptionalDeps s.Optional
    checkMethodNames s.Methods
    if s.InjectPolicy.OnOverwrite = "" ∨ s.InjectPolicy.OnOverwrite = "error" ∨
        s.InjectPolicy.OnOverwrite = "ignore" ∨ s.InjectPolicy.OnOverwrite = "overwrite" then
      Except.ok ()
    else
      Except.error "injectPolicy.onOverwrite must be one of: error|ignore|overwrite"

/-- applyConfigDefaults from cmd/di2/main.go (the nil-receiver early return
cannot fire: genService always passes the address of the spec field). -/
def applyConfigDefaults (c : ConfigSpec) : ConfigSpec :=
  { c with
    Typ := if c.Typ = "" then "config.Config" else c.Typ
    FieldName := if c.FieldName = "" then "cfg" else c.FieldName
    ParamName := if c.ParamName = "" then "cfg" else c.ParamName }

/-- The defaulting block of genService after validation (cmd/di2/main.go):
blank FacadeName becomes WrapperBase+VersionSuffix, blank
PublicConstructorName becomes New+WrapperBase+VersionSuffix, empty
InjectPolicy.OnOverwrite becomes error. -/
def applyServiceNameDefaults (s : ServiceSpec) : ServiceSpec :=
  let s1 :=
    if trimSpace s.FacadeName = "" then
      { s with FacadeName := s.WrapperBase ++ s.VersionSuffix }
    else s
  let s2 :=
    if trimSpace s1.PublicConstructorName = "" then
      { s1 with PublicConstructorName := "New" ++ s1.WrapperBase ++ s1.VersionSuffix }
    else s1
  if s2.InjectPolicy.OnOverwrite = "" then
    { s2 with InjectPolicy := { OnOverwrite := "error" } }
  else s2

/-! Import inference of cmd/di2/main.go.  Filesystem interaction is supplied
through an explicit environment. -/

/-- findImportByAliasOrSuffix from cmd/di2/main.go: the first import whose
alias equals preferAlias wins; only when no alias matches is the first
entry whose path ends with preferSuffix taken. -/
def findImportByAliasOrSuffix (imports : List GoImport)
    (preferAlias preferSuffix : String) : Option GoImport :=
  match (if preferAlias ≠ "" then imports.find? (fun gi => gi.Name == preferAlias) else none) with
  | some gi => some gi
  | none =>
      if preferSuffix ≠ "" then imports.find? (fun gi => hasSuffix gi.Path preferSuffix)
      else none

/-- Results of the filesystem interactions of inferImportsForService, as
explicit inputs: the sibling-source import scan (scanPackageImports), the
project go.mod lookup (findModule), the module-relative package import
(moduleImportPathForDir, blank-result die folded in by the caller), the
config-subdirectory existence check (dirExists), and the DI-runtime import
computed from the generator module (inferDIRuntimeImportFromDI2Module). -/
structure ScanEnv where
  scanned : List GoImport
  findModule : Except String (String × String)
  pkgImport : Except String String
  configDirExists : Bool
  diRuntimeImport : Except String String

/-- The CONFIG branch of inferImportsForService (cmd/di2/main.go): explicit
override first, then the sibling-source scan, then the go.mod fallback;
config disabled force-clears the import to the empty string. -/
def inferConfigImportForService (env : ScanEnv) (cfg : ConfigSpec)
    (imports0 : Imports) : Except String String :=
  if cfg.Enabled then
    let c1 :=
      if trimSpace cfg.Import ≠ "" then trimSpace cfg.Import
      else if trimSpace imports0.Config = "" then
        match findImportByAliasOrSuffix env.scanned "config" "/config" with
        | some gi => gi.Path
        | none => imports0.Config
      else imports0.Config
    if trimSpace c1 = "" then
      match env.findModule with
      | .error e =>
          .error ("cannot infer imports.config (service): config enabled, but no config import in sources and cannot find project go.mod: " ++ e)
      | .ok _ =>
          match env.pkgImport with
          | .error e =>
              .error ("cannot infer imports.config (service): cannot compute project pkg import: " ++ e)
          | .ok p =>
              if trimSpace p = "" then
                .error "cannot infer imports.config (service): cannot compute project pkg import"
              else if env.configDirExists = false then
                .error "cannot infer imports.config (service): config enabled but ./config directory not found"
              else .ok (p ++ "/config")
    else .ok c1
  else .ok ""

/-- The DI branch of inferImportsForService (cmd/di2/main.go). -/
def inferDIImportForService (env : ScanEnv) (imports0 : Imports) :
    Except String String :=
  if trimSpace imports0.DI = "" then
    match findImportByAliasOrSuffix env.scanned "di" "/di" with
    | some gi => .ok gi.Path
    | none => env.diRuntimeImport
  else .ok imports0.DI

/-- inferImportsForService from cmd/di2/main.go: config branch, then DI
branch, both updating the spec's Imports pair; a die in either branch
aborts. -/
def inferImportsForService (env : ScanEnv) (s : ServiceSpec) :
    Except String ServiceSpec :=
  match inferConfigImportForService env s.Config s.Imports with
  | .error e => .error e
  | .ok c =>
      match inferDIImportForService env s.Imports with
      | .error e => .error e
      | .ok d => .ok { s with Imports := { DI := d, Config := c } }

/-! Output writing. -/

/-- writeFormatted from cmd/di2/main.go.  The go/format pass is supplied as
an input (ok carries the formatted text).  The first component is the
sequence of WriteFile calls performed, as (path, content) pairs: on a
format failure the unformatted src is written and the run dies; on success
the formatted text is written. -/
def writeFormatted (fmtRes : Except String String) (out src : String) :
    List (String × String) × Except String Unit :=
  match fmtRes with
  | .error e => ([(out, src)], .error ("gofmt/format failed: " ++ e))
  | .ok fmtSrc => ([(out, fmtSrc)], .ok ())

/-- The filesystem operations writeFileAtomic (cmd/di1/main.go) can perform
on its temporary file, in program order. -/
inductive FsAction where
  | createTmp
  | writeTmp
  | closeTmp
  | chmodTmp
  | renameTmp
  | removeTmp
deriving DecidableEq, Repr

/-- Outcomes of the five hooked file operations of writeFileAtomic
(createTempFile, Write, Close, chmodFile, renameFile), supplied as inputs. -/
structure FsOutcome where
  createRes : Except String Unit
  writeRes : Except String Unit
  closeRes : Except String Unit
  chmodRes : Except String Unit
  renameRes : Except String Unit

/-- writeFileAtomic from cmd/di1/main.go (both di1 variants are identical up
to hook names).  Returns the trace of attempted operations in program order
and the result.  A failed create returns at once; a failed Write explicitly
Closes the temp file and the deferred cleanup then removes it; failures of
Close, chmod and rename trigger the deferred removal; on full success the
deferred cleanup does not run. -/
def writeFileAtomic (o : FsOutcome) : List FsAction × Except String Unit :=
  match o.createRes with
  | .error e => ([.createTmp], .error e)
  | .ok _ =>
      match o.writeRes with
      | .error e => ([.createTmp, .writeTmp, .closeTmp, .removeTmp], .error e)
      | .ok _ =>
          match o.closeRes with
          | .error e => ([.createTmp, .writeTmp, .closeTmp, .removeTmp], .error e)
          | .ok _ =>
              match o.chmodRes with
              | .error e =>
                  ([.createTmp, .writeTmp, .closeTmp, .chmodTmp, .removeTmp], .error e)
              | .ok _ =>
                  match o.renameRes with
                  | .error e =>
                      ([.createTmp, .writeTmp, .closeTmp, .chmodTmp, .renameTmp, .removeTmp],
                        .error e)
                  | .ok _ =>
                      ([.createTmp, .writeTmp, .closeTmp, .chmodTmp, .renameTmp], .ok ())

/-! The di1 generator (cmd/di1/main.go): its Dep/Spec model and validator. -/

/-- Go type Dep from cmd/di1/main.go. -/
structure Dep where
  Name : String
  Field : String
  Typ : String
deriving DecidableEq, Repr

/-- Go type Spec from cmd/di1/main.go (the di1 spec schema). -/
structure Spec where
  Package : String
  WrapperBase : String
  VersionSuffix : String
  ImplType : String
  Constructor : String
  FacadeName : String
  Imports : Imports
  Required : List Dep
  Optional : List Dep
  ConstructorTakesConfig : Option Bool
deriving DecidableEq, Repr

/-- The requireNonEmpty accumulator of validateSpec (cmd/di1/main.go). -/
def requireNonEmpty (acc : List String) (fieldName v : String) : List String :=
  if trimSpace v = "" then acc ++ [fieldName] else acc

/-- The missing-field collection pass of validateSpec (cmd/di1/main.go). -/
def validateSpecMissing (s : Spec) : List String :=
  let m := requireNonEmpty [] "package" s.Package
  let m := requireNonEmpty m "wrapperBase" s.WrapperBase
  let m := requireNonEmpty m "versionSuffix" s.VersionSuffix
  let m := requireNonEmpty m "implType" s.ImplType
  let m := requireNonEmpty m "constructor" s.Constructor
  if s.Required.length = 0 then m ++ ["required (must have at least 1)"] else m

/-- The validateDep pass of validateSpec (cmd/di1/main.go): per-dep field
presence, then uniqueness of names and of fields against the seen sets.
The Go code runs the closure over Required then Optional with the same two
seen maps, which is one pass over their concatenation. -/
def checkDeps (seenNames seenFields : List String) : List Dep → Except String Unit
  | [] => .ok ()
  | d :: rest =>
      if d.Name = "" ∨ d.Field = "" ∨ d.Typ = "" then
        .error ("each dep must have name/field/type; got: " ++ d.Name)
      else if seenNames.contains d.Name then
        .error ("duplicate dep name: " ++ d.Name)
      else if seenFields.contains d.Field then
        .error ("duplicate dep field: " ++ d.Field)
      else
        checkDeps (seenNames ++ [d.Name]) (seenFields ++ [d.Field]) rest

/-- validateSpec from cmd/di1/main.go: missing-field pass, then the dep
uniqueness pass over required and optional together. -/
def validateSpec (s : Spec) : Except String Unit :=
  let missing := validateSpecMissing s
  if missing.length ≠ 0 then
    .error ("spec missing required fields: " ++ String.intercalate ", " missing)
  else
    checkDeps [] [] (s.Required ++ s.Optional)

/-! Template fragments of serviceTpl and graphTpl (cmd/di2/main.go),
rendered line by line in template order. -/

/-- The isError helper of serviceTpl. -/
def isErrorType (t : String) : Bool := t == "error"

/-- The constructor signature line of serviceTpl: a config parameter exists
exactly when Config.Enabled. -/
def renderServiceCtorHeader (s : ServiceSpec) : String :=
  if s.Config.Enabled then
    "func " ++ s.PublicConstructorName ++ "(" ++ s.Config.ParamName ++ " "
      ++ s.Config.Typ ++ ") *" ++ s.FacadeName ++ " \x7b"
  else
    "func " ++ s.PublicConstructorName ++ "() *" ++ s.FacadeName ++ " \x7b"

/-- The statements serviceTpl renders inside the err != nil branch of a
generated method wrapper.  For two or more returns the template emits a
panic statement into the generated source when the last return type is not
error, then the zero-value declarations, then a return whose last operand
is err.  Template execution itself cannot fail here. -/
def renderMethodErrBranch (m : MethodSpec) : List String :=
  match m.Returns with
  | [] => ["return"]
  | [r] =>
      if isErrorType r.Typ then ["return err"]
      else ["var zero " ++ r.Typ, "return zero"]
  | r1 :: r2 :: rest =>
      let rs := r1 :: r2 :: rest
      let lastTyp := (rs.getLast (by simp)).Typ
      let panicLines :=
        if isErrorType lastTyp then []
        else ["panic(fmt.Errorf(\"di2: method " ++ m.Name
          ++ " last return must be error for safe codegen\"))"]
      let zeroLines := (List.range (rs.length - 1)).map (fun i =>
        "var zero" ++ toString i ++ " " ++ (((rs.get? i).map MethodReturn.Typ).getD ""))
      let retLine := "return "
        ++ String.join ((List.range (rs.length - 1)).map (fun i => "zero" ++ toString i ++ ", "))
        ++ "err"
      panicLines ++ zeroLines ++ [retLine]

/-- exportName from cmd/di2/main.go: upper-case the first character. -/
def exportName (s : String) : String :=
  match s.data with
  | [] => s
  | c :: rest => String.mk (c.toUpper :: rest)

/-- One statement of the composition-function body graphTpl renders,
carrying the data the corresponding template line interpolates. -/
inductive GStmt where
  | ctorCall (v ctor : String)
  | wireCall (toSvc call argFrom : String)
  | buildCall (v : String) (withRegistry : Bool)
  | errCheck (root v : String)
  | assignResult (v : String)
deriving DecidableEq, Repr

/-- The source line graphTpl emits for one statement (cfgArg is the
config argument of the facade constructors, empty when config is
disabled). -/
def GStmt.render (cfgArg : String) : GStmt → String
  | GStmt.ctorCall v ctor => v ++ "B := " ++ ctor ++ "(" ++ cfgArg ++ ")"
  | GStmt.wireCall t c a => t ++ "B." ++ c ++ "(" ++ a ++ "B.UnsafeImpl())"
  | GStmt.buildCall v withReg =>
      if withReg then v ++ "Svc, err := " ++ v ++ "B.BuildWith(reg)"
      else v ++ "Svc, err := " ++ v ++ "B.Build()"
  | GStmt.errCheck root v =>
      "if err != nil \x7b return res, fmt.Errorf(\"" ++ root ++ ": build " ++ v
        ++ " failed: %w\", err) \x7d"
  | GStmt.assignResult v => "res." ++ exportName v ++ " = " ++ v ++ "Svc"

/-- Body of the composition function graphTpl renders for one root, in
template order: every builder construction, then every wire-step, then per
service its build call, error check and result assignment. -/
def renderRootStmts (r : GraphRoot) : List GStmt :=
  (r.Services.map fun s => GStmt.ctorCall s.Var s.FacadeCtor)
    ++ (r.Wiring.map fun w => GStmt.wireCall w.To w.Call w.ArgFrom)
    ++ (r.Services.map fun s =>
        [GStmt.buildCall s.Var r.BuildWithRegistry,
          GStmt.errCheck r.Name s.Var,
          GStmt.assignResult s.Var]).flatten

/-! Claim theorems. -/

/-- C1: for every pair of import lists (required, preserved), the
merged list returned by mergeImports is sorted lexicographically by
(path, alias) and contains no duplicate (path, alias) pair, regardless of
input order; and the orderings genService and genGraph render for required
deps, optional deps, methods and roots are sorted lexicographically by
name. -/
theorem c1_deterministic_ordering :
    (∀ required preserved : List GoImport,
      List.Sorted impLe (mergeImports required preserved) ∧
        (mergeImports required preserved).Pairwise (fun a b => impKey a ≠ impKey b)) ∧
    (∀ l : List RequiredDep,
      List.Sorted (nameLe RequiredDep.Name) (sortRequiredDeps l)) ∧
    (∀ l : List OptionalDep,
      List.Sorted (nameLe OptionalDep.Name) (sortOptionalDeps l)) ∧
    (∀ l : List MethodSpec,
      List.Sorted (nameLe MethodSpec.Name) (sortMethods l)) ∧
    (∀ l : List GraphRoot,
      List.Sorted (nameLe GraphRoot.Name) (sortGraphRoots l)) :=
  ⟨fun required preserved =>
      ⟨mergeImports_sorted required preserved, mergeImports_pairwise_key required preserved⟩,
    fun l => List.sorted_insertionSort _ l,
    fun l => List.sorted_insertionSort _ l,
    fun l => List.sorted_insertionSort _ l,
    fun l => List.sorted_insertionSort _ l⟩

/-- C10: mergeImports deduplicates by the exact (path, alias) pair: for any
required and preserved lists the merged output contains every import of the
inputs exactly once (an import being its (path, alias) pair), so a path
occurring under two different aliases keeps both entries and entries are
never collapsed by path alone. -/
theorem c10_dedup_by_exact_pair :
    ∀ required preserved : List GoImport,
      (mergeImports required preserved).Nodup ∧
        (∀ gi : GoImport, gi ∈ mergeImports required preserved ↔ gi ∈ required ++ preserved) := by
  intro required preserved
  refine ⟨?_, fun gi => mem_mergeImports required preserved gi⟩
  have hpw := mergeImports_pairwise_key required preserved
  exact hpw.imp (fun hk he => hk (congrArg impKey he))

/-- C4: writeFileAtomic runs create, write, close, chmod, rename in order;
a failure at write, close, chmod or rename deletes the temporary file as
its final action before returning that error; a create failure returns the
error without attempting any deletion. -/
theorem c4_writeFileAtomic_state_machine (o : FsOutcome) :
    (o.createRes = .ok () → o.writeRes = .ok () → o.closeRes = .ok () →
      o.chmodRes = .ok () → o.renameRes = .ok () →
      writeFileAtomic o =
        ([.createTmp, .writeTmp, .closeTmp, .chmodTmp, .renameTmp], .ok ())) ∧
    (∀ e, o.createRes = .error e →
      writeFileAtomic o = ([.createTmp], .error e) ∧
        FsAction.removeTmp ∉ (writeFileAtomic o).1) ∧
    (∀ e, o.createRes = .ok () →
      (o.writeRes = .error e ∨
        (o.writeRes = .ok () ∧ o.closeRes = .error e) ∨
        (o.writeRes = .ok () ∧ o.closeRes = .ok () ∧ o.chmodRes = .error e) ∨
        (o.writeRes = .ok () ∧ o.closeRes = .ok () ∧ o.chmodRes = .ok () ∧
          o.renameRes = .error e)) →
      (writeFileAtomic o).2 = .error e ∧
        (writeFileAtomic o).1.getLast? = some FsAction.removeTmp) := by
  refine ⟨?_, ?_, ?_⟩
  · intro h1 h2 h3 h4 h5
    unfold writeFileAtomic
    rw [h1, h2, h3, h4, h5]
  · intro e he
    constructor
    · unfold writeFileAtomic
      rw [he]
    · unfold writeFileAtomic
      rw [he]
      show FsAction.removeTmp ∉ [FsAction.createTmp]
      decide
  · intro e hc hcase
    rcases hcase with hw | ⟨hw, hcl⟩ | ⟨hw, hcl, hch⟩ | ⟨hw, hcl, hch, hr⟩
    · unfold writeFileAtomic
      rw [hc, hw]
      exact ⟨rfl, rfl⟩
    · unfold writeFileAtomic
      rw [hc, hw, hcl]
      exact ⟨rfl, rfl⟩
    · unfold writeFileAtomic
      rw [hc, hw, hcl, hch]
      exact ⟨rfl, rfl⟩
    · unfold writeFileAtomic
      rw [hc, hw, hcl, hch, hr]
      exact ⟨rfl, rfl⟩

/-- Witness for C4: a concrete successful run, a concrete write failure
(error returned, removal last), and a concrete create failure (error
returned with no removal attempted). -/
theorem c4_writeFileAtomic_state_machine_witness :
    writeFileAtomic ⟨.ok (), .ok (), .ok (), .ok (), .ok ()⟩ =
      ([.createTmp, .writeTmp, .closeTmp, .chmodTmp, .renameTmp], .ok ()) ∧
    ((writeFileAtomic ⟨.ok (), .error "disk full", .ok (), .ok (), .ok ()⟩).2 =
        .error "disk full" ∧
      (writeFileAtomic ⟨.ok (), .error "disk full", .ok (), .ok (), .ok ()⟩).1.getLast? =
        some FsAction.removeTmp) ∧
    (writeFileAtomic ⟨.error "permission denied", .ok (), .ok (), .ok (), .ok ()⟩ =
        ([.createTmp], .error "permission denied") ∧
      FsAction.removeTmp ∉
        (writeFileAtomic ⟨.error "permission denied", .ok (), .ok (), .ok (), .ok ()⟩).1) :=
  ⟨(c4_writeFileAtomic_state_machine _).1 rfl rfl rfl rfl rfl,
    (c4_writeFileAtomic_state_machine _).2.2 "disk full" rfl (Or.inl rfl),
    (c4_writeFileAtomic_state_machine _).2.1 "permission denied" rfl⟩

/-- C8: when the source-formatting pass fails, writeFormatted still writes
the unformatted bytes to the target path and the invocation fails; when
formatting succeeds, the formatted bytes are written and the operation
succeeds. -/
theorem c8_writeFormatted_behavior (fmtRes : Except String String) (out src : String) :
    (∀ e, fmtRes = .error e →
      writeFormatted fmtRes out src =
        ([(out, src)], .error ("gofmt/format failed: " ++ e))) ∧
    (∀ f, fmtRes = .ok f →
      writeFormatted fmtRes out src = ([(out, f)], .ok ())) := by
  constructor
  · intro e he
    unfold writeFormatted
    rw [he]
  · intro f hf
    unfold writeFormatted
    rw [hf]

/-- C2 (amended): when config support is on and the explicit override is
non-blank, import resolution returns the override with surrounding
whitespace trimmed (otherwise unchanged), independently of the whole
filesystem environment; and findImportByAliasOrSuffix returns an
alias-matching entry whenever one exists, adopting a suffix match only
when no alias match exists. -/
theorem c2_override_and_alias_priority :
    (∀ env env2 : ScanEnv, ∀ cfg : ConfigSpec, ∀ imports0 : Imports,
      cfg.Enabled = true → trimSpace cfg.Import ≠ "" →
      inferConfigImportForService env cfg imports0 = .ok (trimSpace cfg.Import) ∧
        inferConfigImportForService env cfg imports0 =
          inferConfigImportForService env2 cfg imports0) ∧
    (∀ imports : List GoImport, ∀ a sfx : String, ∀ gi : GoImport,
      a ≠ "" → gi ∈ imports → gi.Name = a →
      ∃ gi2, findImportByAliasOrSuffix imports a sfx = some gi2 ∧ gi2.Name = a) ∧
    (∀ imports : List GoImport, ∀ a sfx : String, ∀ gi : GoImport,
      a ≠ "" → findImportByAliasOrSuffix imports a sfx = some gi → gi.Name ≠ a →
      hasSuffix gi.Path sfx = true ∧ ∀ x ∈ imports, x.Name ≠ a) := by
  refine ⟨?_, ?_, ?_⟩
  · intro env env2 cfg imports0 hEn hov
    have key : ∀ e : ScanEnv,
        inferConfigImportForService e cfg imports0 = .ok (trimSpace cfg.Import) := by
      intro e
      unfold inferConfigImportForService
      rw [if_pos hEn]
      simp only [if_pos hov]
      rw [trimSpace_idem]
      rw [if_neg hov]
    exact ⟨key env, (key env).trans (key env2).symm⟩
  · intro imports a sfx gi ha hmem hname
    have hex : ∃ x, x ∈ imports ∧ (fun gi => gi.Name == a) x = true :=
      ⟨gi, hmem, by simp [hname]⟩
    have hsome : (imports.find? (fun gi => gi.Name == a)).isSome := by
      rw [List.find?_isSome]
      exact hex
    obtain ⟨y, hy⟩ := Option.isSome_iff_exists.mp hsome
    refine ⟨y, ?_, ?_⟩
    · unfold findImportByAliasOrSuffix
      rw [if_pos ha, hy]
    · have := List.find?_some hy
      simpa using this
  · intro imports a sfx gi ha hfind hne
    unfold findImportByAliasOrSuffix at hfind
    rw [if_pos ha] at hfind
    cases hfa : imports.find? (fun gi => gi.Name == a) with
    | some y =>
        rw [hfa] at hfind
        have hfind2 : some y = some gi := hfind
        have hya : y.Name = a := by simpa using List.find?_some hfa
        have hyg : y = gi := by injection hfind2
        exact absurd (hyg ▸ hya) hne
    | none =>
        rw [hfa] at hfind
        have hfind2 : (if sfx ≠ "" then imports.find? (fun gi => hasSuffix gi.Path sfx)
            else none) = some gi := hfind
        by_cases hs : sfx ≠ ""
        · rw [if_pos hs] at hfind2
          have hp := List.find?_some hfind2
          refine ⟨by simpa using hp, ?_⟩
          intro x hx
          have := List.find?_eq_none.mp hfa x hx
          simpa using this
        · rw [if_neg hs] at hfind2
          exact absurd hfind2 (by simp)

/-- Concrete scan environment used by the C2 and C3 supporting theorems. -/
def envA : ScanEnv :=
  ⟨[⟨"config", "github.com/acme/app/config"⟩],
    .ok ("root", "github.com/acme/app"), .ok "github.com/acme/app/v4", true,
    .ok "github.com/sghaida/odi/di"⟩

/-- A second, different environment, to exhibit independence from the
filesystem scan. -/
def envB : ScanEnv :=
  ⟨[⟨"", "other/lib/config"⟩], .error "no go.mod", .error "no go.mod", false,
    .error "runtime.Caller failed"⟩

/-- Witness for C2: the trimmed override is returned under either
environment; a scanned list with an alias match resolves through it; a
scanned list with only a suffix match adopts the suffix entry. -/
theorem c2_override_and_alias_priority_witness :
    inferConfigImportForService envA ⟨true, " github.com/acme/cfg ", "", "", ""⟩ ⟨"", ""⟩ =
      .ok (trimSpace " github.com/acme/cfg ") ∧
    inferConfigImportForService envA ⟨true, " github.com/acme/cfg ", "", "", ""⟩ ⟨"", ""⟩ =
      inferConfigImportForService envB ⟨true, " github.com/acme/cfg ", "", "", ""⟩ ⟨"", ""⟩ ∧
    (findImportByAliasOrSuffix envA.scanned "config" "/config").isSome = true ∧
    hasSuffix "other/lib/config" "/config" = true := by
  obtain ⟨h1, h2⟩ := c2_override_and_alias_priority.1 envA envB
    ⟨true, " github.com/acme/cfg ", "", "", ""⟩ ⟨"", ""⟩ rfl (by decide)
  refine ⟨h1, h2, ?_, ?_⟩
  · obtain ⟨gi2, hgi, _⟩ := c2_override_and_alias_priority.2.1 envA.scanned
      "config" "/config" ⟨"config", "github.com/acme/app/config"⟩ (by decide)
      (by simp [envA]) rfl
    rw [hgi]
    rfl
  · exact (c2_override_and_alias_priority.2.2 envB.scanned "config" "/config"
      ⟨"", "other/lib/config"⟩ (by decide) rfl (by decide)).1

/-- C2 counterexample: the explicit override is not used verbatim; the code
stores strings.TrimSpace of it, so a padded override resolves to its
trimmed form. -/
theorem c2_override_not_verbatim :
    inferConfigImportForService envA ⟨true, " x ", "", "", ""⟩ ⟨"", ""⟩ = .ok "x" ∧
    ("x" : String) ≠ " x " := by
  constructor
  · rfl
  · decide

/-- C3: with config support disabled in the spec, import inference yields an
empty config import regardless of any previously carried value, and the
rendered constructor takes no config parameter. -/
theorem c3_config_disabled_clears (env : ScanEnv) (s s2 : ServiceSpec)
    (hdis : s.Config.Enabled = false)
    (h : inferImportsForService env s = .ok s2) :
    s2.Imports.Config = "" ∧
    renderServiceCtorHeader s2 =
      "func " ++ s2.PublicConstructorName ++ "() *" ++ s2.FacadeName ++ " \x7b" := by
  have hconf : inferConfigImportForService env s.Config s.Imports = .ok "" := by
    unfold inferConfigImportForService
    rw [if_neg]
    rw [hdis]
    exact Bool.false_ne_true
  unfold inferImportsForService at h
  rw [hconf] at h
  cases hd : inferDIImportForService env s.Imports with
  | error e =>
      rw [hd] at h
      exact absurd h (by simp)
  | ok d =>
      rw [hd] at h
      have hs2 : ({ s with Imports := { DI := d, Config := "" } } : ServiceSpec) = s2 := by
        injection h
      subst hs2
      refine ⟨rfl, ?_⟩
      unfold renderServiceCtorHeader
      rw [if_neg]
      rw [show ({ s with Imports := { DI := d, Config := "" } } : ServiceSpec).Config = s.Config
        from rfl, hdis]
      exact Bool.false_ne_true

/-- Concrete spec for the C3 witness: config disabled while a stale
config import is still carried by the spec. -/
def c3spec : ServiceSpec :=
  { Package := "v4", WrapperBase := "Core", VersionSuffix := "V4", ImplType := "Core",
    Constructor := "NewCore", Imports := ⟨"", "github.com/stale/config"⟩,
    Config := ⟨false, "", "config.Config", "cfg", "cfg"⟩,
    FacadeName := "CoreV4", PublicConstructorName := "NewCoreV4",
    InjectPolicy := ⟨"error"⟩, Cyclic := false,
    Required := [⟨"Alpha", "alpha", "*Alpha", true⟩], Optional := [], Methods := [] }

/-- The spec c3spec after import inference under envB. -/
def c3specAfter : ServiceSpec :=
  { c3spec with Imports := ⟨"github.com/sghaida/odi/di", ""⟩ }

/-- Witness for C3 at a concrete disabled-config spec whose stale
config import is cleared. -/
theorem c3_config_disabled_clears_witness :
    c3specAfter.Imports.Config = "" ∧
    renderServiceCtorHeader c3specAfter =
      "func " ++ c3specAfter.PublicConstructorName ++ "() *" ++ c3specAfter.FacadeName
        ++ " \x7b" :=
  c3_config_disabled_clears envA c3spec c3specAfter rfl rfl

/-- C7 (amended): defaulting fills exactly the blank fields — facade name
base+suffix, public constructor New+base+suffix, overwrite policy error,
config type/field/parameter config.Config, cfg, cfg — and leaves non-blank
values unchanged. -/
theorem c7_defaulting_fills_blank_fields (s : ServiceSpec) (c : ConfigSpec) :
    (trimSpace s.FacadeName = "" →
      (applyServiceNameDefaults s).FacadeName = s.WrapperBase ++ s.VersionSuffix) ∧
    (trimSpace s.FacadeName ≠ "" →
      (applyServiceNameDefaults s).FacadeName = s.FacadeName) ∧
    (trimSpace s.PublicConstructorName = "" →
      (applyServiceNameDefaults s).PublicConstructorName =
        "New" ++ s.WrapperBase ++ s.VersionSuffix) ∧
    (trimSpace s.PublicConstructorName ≠ "" →
      (applyServiceNameDefaults s).PublicConstructorName = s.PublicConstructorName) ∧
    (s.InjectPolicy.OnOverwrite = "" →
      (applyServiceNameDefaults s).InjectPolicy.OnOverwrite = "error") ∧
    (s.InjectPolicy.OnOverwrite ≠ "" →
      (applyServiceNameDefaults s).InjectPolicy.OnOverwrite = s.InjectPolicy.OnOverwrite) ∧
    ((applyConfigDefaults c).Typ = if c.Typ = "" then "config.Config" else c.Typ) ∧
    ((applyConfigDefaults c).FieldName = if c.FieldName = "" then "cfg" else c.FieldName) ∧
    ((applyConfigDefaults c).ParamName = if c.ParamName = "" then "cfg" else c.ParamName) := by
  unfold applyServiceNameDefaults applyConfigDefaults
  by_cases hf : trimSpace s.FacadeName = "" <;>
    by_cases hp : trimSpace s.PublicConstructorName = "" <;>
    by_cases ho : s.InjectPolicy.OnOverwrite = "" <;>
    simp [hf, hp, ho]

/-- Witness for C7 at a concrete spec with a blank facade name, a set
constructor name, an empty policy and an empty config type. -/
theorem c7_defaulting_fills_blank_fields_witness :
    (applyServiceNameDefaults { c3spec with
        FacadeName := " ", InjectPolicy := ⟨""⟩ }).FacadeName = "Core" ++ "V4" ∧
    (applyServiceNameDefaults { c3spec with
        FacadeName := " ", InjectPolicy := ⟨""⟩ }).PublicConstructorName = "NewCoreV4" ∧
    (applyServiceNameDefaults { c3spec with
        FacadeName := " ", InjectPolicy := ⟨""⟩ }).InjectPolicy.OnOverwrite = "error" ∧
    (applyConfigDefaults ⟨true, "", "", "", "cfgParam"⟩).Typ =
      (if ("" : String) = "" then "config.Config" else "") := by
  have h := c7_defaulting_fills_blank_fields
    { c3spec with FacadeName := " ", InjectPolicy := ⟨""⟩ } ⟨true, "", "", "", "cfgParam"⟩
  exact ⟨h.1 (by decide), h.2.2.2.1 (by decide), h.2.2.2.2.1 rfl, h.2.2.2.2.2.2.1⟩

/-- C7 counterexample: the fixed default for an empty config type is
config.Config, not Config as the claim states; and the facade name is
defaulted on blank-after-trimming, so a whitespace-only (hence non-empty)
facade name is replaced rather than left unchanged. -/
theorem c7_defaults_counterexample :
    (applyConfigDefaults ⟨true, "", "", "", ""⟩).Typ = "config.Config" ∧
    (applyConfigDefaults ⟨true, "", "", "", ""⟩).Typ ≠ "Config" ∧
    (applyServiceNameDefaults { c3spec with FacadeName := " " }).FacadeName =
      "Core" ++ "V4" ∧
    (" " : String) ≠ "" := by
  refine ⟨rfl, by decide, rfl, by decide⟩

/-- Witness for C8 at a concrete failing formatter and a concrete
succeeding formatter. -/
theorem c8_writeFormatted_behavior_witness :
    writeFormatted (.error "expected declaration") "svc.gen.go" "package  broken" =
      ([("svc.gen.go", "package  broken")],
        .error ("gofmt/format failed: " ++ "expected declaration")) ∧
    writeFormatted (.ok "package ok") "svc.gen.go" "package  ok" =
      ([("svc.gen.go", "package ok")], .ok ()) :=
  ⟨(c8_writeFormatted_behavior _ _ _).1 "expected declaration" rfl,
    (c8_writeFormatted_behavior _ _ _).2 "package ok" rfl⟩

/-! C5 support: what the di1 dep pass guarantees and requires. -/

theorem checkDeps_ok_facts : ∀ (l : List Dep) (sn sf : List String),
    checkDeps sn sf l = .ok () →
    (l.map Dep.Name).Nodup ∧ (l.map Dep.Field).Nodup ∧
      (∀ d ∈ l, d.Name ∉ sn) ∧ (∀ d ∈ l, d.Field ∉ sf) := by
  intro l
  induction l with
  | nil => intro sn sf _; simp
  | cons d rest ih =>
      intro sn sf h
      unfold checkDeps at h
      by_cases h1 : d.Name = "" ∨ d.Field = "" ∨ d.Typ = ""
      · rw [if_pos h1] at h
        exact absurd h (by simp)
      · rw [if_neg h1] at h
        by_cases h2 : sn.contains d.Name = true
        · rw [if_pos h2] at h
          exact absurd h (by simp)
        · rw [if_neg h2] at h
          by_cases h3 : sf.contains d.Field = true
          · rw [if_pos h3] at h
            exact absurd h (by simp)
          · rw [if_neg h3] at h
            obtain ⟨hn, hf, hsn, hsf⟩ := ih (sn ++ [d.Name]) (sf ++ [d.Field]) h
            have hsn2 : ∀ e ∈ rest, e.Name ∉ sn ∧ e.Name ≠ d.Name := by
              intro e he
              have := hsn e he
              simp only [List.mem_append, List.mem_singleton] at this
              tauto
            have hsf2 : ∀ e ∈ rest, e.Field ∉ sf ∧ e.Field ≠ d.Field := by
              intro e he
              have := hsf e he
              simp only [List.mem_append, List.mem_singleton] at this
              tauto
            refine ⟨?_, ?_, ?_, ?_⟩
            · rw [List.map_cons, List.nodup_cons]
              refine ⟨?_, hn⟩
              intro hmem
              obtain ⟨e, he, hEq⟩ := List.mem_map.mp hmem
              exact (hsn2 e he).2 hEq
            · rw [List.map_cons, List.nodup_cons]
              refine ⟨?_, hf⟩
              intro hmem
              obtain ⟨e, he, hEq⟩ := List.mem_map.mp hmem
              exact (hsf2 e he).2 hEq
            · intro e he
              rcases List.mem_cons.mp he with rfl | he2
              · intro hmem
                exact h2 (List.elem_iff.mpr hmem)
              · exact (hsn2 e he2).1
            · intro e he
              rcases List.mem_cons.mp he with rfl | he2
              · intro hmem
                exact h3 (List.elem_iff.mpr hmem)
              · exact (hsf2 e he2).1

theorem checkDeps_ok_of_nodup : ∀ (l : List Dep) (sn sf : List String),
    (∀ d ∈ l, d.Name ≠ "" ∧ d.Field ≠ "" ∧ d.Typ ≠ "") →
    (sn ++ l.map Dep.Name).Nodup → (sf ++ l.map Dep.Field).Nodup →
    checkDeps sn sf l = .ok () := by
  intro l
  induction l with
  | nil => intro sn sf _ _ _; rfl
  | cons d rest ih =>
      intro sn sf hwf hn hf
      unfold checkDeps
      have h1 : ¬ (d.Name = "" ∨ d.Field = "" ∨ d.Typ = "") := by
        have := hwf d (List.mem_cons_self d rest)
        tauto
      rw [if_neg h1]
      have hnN : (sn ++ d.Name :: rest.map Dep.Name).Nodup := by
        simpa using hn
      have hnF : (sf ++ d.Field :: rest.map Dep.Field).Nodup := by
        simpa using hf
      have hdn : d.Name ∉ sn := by
        intro hmem
        have hdis := (List.nodup_append.mp hnN).2.2
        exact hdis hmem (List.mem_cons_self _ _)
      have hdf : d.Field ∉ sf := by
        intro hmem
        have hdis := (List.nodup_append.mp hnF).2.2
        exact hdis hmem (List.mem_cons_self _ _)
      rw [if_neg (fun hc => hdn (List.elem_iff.mp hc))]
      rw [if_neg (fun hc => hdf (List.elem_iff.mp hc))]
      apply ih (sn ++ [d.Name]) (sf ++ [d.Field])
      · intro e he
        exact hwf e (List.mem_cons_of_mem d he)
      · rw [List.append_assoc, List.singleton_append]
        exact hnN
      · rw [List.append_assoc, List.singleton_append]
        exact hnF

/-- C5 (amended): the uniqueness rule lives in the di1 validator: for every
di1 spec, validateSpec fails whenever two deps across required+optional
share a name or share a field, and accepts when the header fields are
non-blank, required is non-empty, every dep has name/field/type, and the
names and fields are pairwise distinct.  The di2 validator performs no
uniqueness check (see the counterexample). -/
theorem c5_dep_uniqueness (s : Spec) :
    ((¬ ((s.Required ++ s.Optional).map Dep.Name).Nodup ∨
        ¬ ((s.Required ++ s.Optional).map Dep.Field).Nodup) →
      validateSpec s ≠ .ok ()) ∧
    (trimSpace s.Package ≠ "" → trimSpace s.WrapperBase ≠ "" →
      trimSpace s.VersionSuffix ≠ "" → trimSpace s.ImplType ≠ "" →
      trimSpace s.Constructor ≠ "" → s.Required.length ≠ 0 →
      (∀ d ∈ s.Required ++ s.Optional, d.Name ≠ "" ∧ d.Field ≠ "" ∧ d.Typ ≠ "") →
      ((s.Required ++ s.Optional).map Dep.Name).Nodup →
      ((s.Required ++ s.Optional).map Dep.Field).Nodup →
      validateSpec s = .ok ()) := by
  constructor
  · intro hdup hok
    unfold validateSpec at hok
    by_cases hm : (validateSpecMissing s).length ≠ 0
    · rw [if_pos hm] at hok
      exact absurd hok (by simp)
    · rw [if_neg hm] at hok
      obtain ⟨hn, hf, _, _⟩ := checkDeps_ok_facts (s.Required ++ s.Optional) [] [] hok
      tauto
  · intro h1 h2 h3 h4 h5 h6 hwf hn hf
    unfold validateSpec
    have hm : validateSpecMissing s = [] := by
      simp [validateSpecMissing, requireNonEmpty, h1, h2, h3, h4, h5, h6]
    rw [hm]
    simp only [List.length_nil, ne_eq, not_true_eq_false, if_false]
    exact checkDeps_ok_of_nodup (s.Required ++ s.Optional) [] [] hwf
      (by simpa using hn) (by simpa using hf)

/-- A well-formed di1 spec with distinct dep names and fields, and the same
spec with the second dependency renamed to collide, for the C5 witness. -/
def c5okSpec : Spec :=
  { Package := "svc", WrapperBase := "User", VersionSuffix := "V1",
    ImplType := "Service", Constructor := "NewService", FacadeName := "",
    Imports := ⟨"", "example.com/project/autowire/config"⟩,
    Required := [⟨"DB", "db", "*sql.DB"⟩],
    Optional := [⟨"Logger", "logger", "Logger"⟩],
    ConstructorTakesConfig := none }

def c5dupNameSpec : Spec :=
  { c5okSpec with Optional := [⟨"DB", "logger", "Logger"⟩] }

/-- Witness for C5: the duplicate-name variant is rejected and the
all-unique spec passes. -/
theorem c5_dep_uniqueness_witness :
    validateSpec c5dupNameSpec ≠ .ok () ∧ validateSpec c5okSpec = .ok () :=
  ⟨(c5_dep_uniqueness c5dupNameSpec).1 (Or.inl (by decide)),
    (c5_dep_uniqueness c5okSpec).2 (by decide) (by decide) (by decide) (by decide)
      (by decide) (by decide) (by decide) (by decide) (by decide)⟩

/-- A di2 service spec carrying two required dependencies with the same
name (and the same field). -/
def c5di2DupSpec : ServiceSpec :=
  { Package := "v4", WrapperBase := "Core", VersionSuffix := "V4", ImplType := "Core",
    Constructor := "NewCore", Imports := ⟨"", ""⟩,
    Config := ⟨false, "", "", "", ""⟩, FacadeName := "", PublicConstructorName := "",
    InjectPolicy := ⟨"error"⟩, Cyclic := false,
    Required := [⟨"DB", "db", "*DB", true⟩, ⟨"DB", "db", "*DB", true⟩],
    Optional := [], Methods := [] }

/-- C5 counterexample: di2's validateServiceSpec accepts a spec in which
two dependencies share the same name and the same field, so the claim that
spec validation fails for every such specification is false for the di2
spec validator. -/
theorem c5_di2_no_uniqueness_check :
    validateServiceSpec c5di2DupSpec = .ok () ∧
    ¬ (c5di2DupSpec.Required.map RequiredDep.Name
        ++ c5di2DupSpec.Optional.map OptionalDep.Name).Nodup := by
  constructor
  · rfl
  · decide

/-! C6: methods with two or more returns whose last return is not error. -/

/-- C6 counterexample input: two return values, the last not of the error
kind. -/
def c6method : MethodSpec :=
  { Name := "Score", Params := [], Returns := [⟨"int"⟩, ⟨"string"⟩], Requires := [] }

/-- C6 counterexample: generation does not abort for a method whose last of
two returns is not error; serviceTpl renders the method anyway, emitting a
panic statement into the generated source followed by a return that still
ends in err (which cannot type-check against a string result), so broken
source is committed rather than generation failing. -/
theorem c6_generation_emits_for_bad_method :
    renderMethodErrBranch c6method =
      ["panic(fmt.Errorf(\"di2: method Score last return must be error for safe codegen\"))",
        "var zero0 int",
        "return zero0, err"] := by
  rfl

/-- C6 (amended): for every method with two or more returns whose last
return type is not error, serviceTpl still renders the method: the error
branch contains the generated panic statement naming the violated rule,
and its final statement is a return ending in err.  The rule is not
enforced at generation time. -/
theorem c6_bad_method_renders_panic (m : MethodSpec) (r1 r2 : MethodReturn)
    (rest : List MethodReturn) (hret : m.Returns = r1 :: r2 :: rest)
    (hlast : isErrorType ((r1 :: r2 :: rest).getLast (by simp)).Typ = false) :
    ("panic(fmt.Errorf(\"di2: method " ++ m.Name
        ++ " last return must be error for safe codegen\"))") ∈ renderMethodErrBranch m ∧
    (renderMethodErrBranch m).getLast? = some ("return "
      ++ String.join ((List.range ((r1 :: r2 :: rest).length - 1)).map
          (fun i => "zero" ++ toString i ++ ", ")) ++ "err") := by
  unfold renderMethodErrBranch
  rw [hret]
  simp only [hlast, Bool.false_eq_true, if_false]
  constructor
  · exact List.mem_cons_self _ _
  · rw [List.getLast?_concat]

/-- Witness for C6 at the concrete Score method. -/
theorem c6_bad_method_renders_panic_witness :
    ("panic(fmt.Errorf(\"di2: method " ++ c6method.Name
        ++ " last return must be error for safe codegen\"))")
      ∈ renderMethodErrBranch c6method ∧
    (renderMethodErrBranch c6method).getLast? = some ("return "
      ++ String.join ((List.range
          (([⟨"int"⟩, ⟨"string"⟩] : List MethodReturn).length - 1)).map
          (fun i => "zero" ++ toString i ++ ", ")) ++ "err") :=
  c6_bad_method_renders_panic c6method ⟨"int"⟩ ⟨"string"⟩ [] rfl rfl

/-! C9: wiring precedes builds in every rendered composition function. -/

theorem wire_not_in_build_blocks (r : GraphRoot) (x : GStmt)
    (hx : x ∈ (r.Services.map fun s =>
        [GStmt.buildCall s.Var r.BuildWithRegistry, GStmt.errCheck r.Name s.Var,
          GStmt.assignResult s.Var]).flatten) :
    ∀ t c a, x ≠ GStmt.wireCall t c a := by
  rw [List.mem_flatten] at hx
  obtain ⟨l, hl, hxl⟩ := hx
  rw [List.mem_map] at hl
  obtain ⟨s, _, rfl⟩ := hl
  intro t c a
  simp only [List.mem_cons, List.not_mem_nil, or_false] at hxl
  rcases hxl with rfl | rfl | rfl <;> simp

theorem build_not_in_ctor_or_wire (r : GraphRoot) (x : GStmt)
    (hx : x ∈ (r.Services.map fun s => GStmt.ctorCall s.Var s.FacadeCtor)
        ++ (r.Wiring.map fun w => GStmt.wireCall w.To w.Call w.ArgFrom)) :
    ∀ v b, x ≠ GStmt.buildCall v b := by
  intro v b
  rw [List.mem_append] at hx
  rcases hx with hx | hx <;> rw [List.mem_map] at hx <;> obtain ⟨y, _, rfl⟩ := hx <;> simp

/-- C9: in the composition function graphTpl renders for any root, every
wire-step statement occurs strictly before every build invocation of a
service builder. -/
theorem c9_wiring_before_builds (r : GraphRoot) (i j : Nat)
    (t c a v : String) (b : Bool)
    (hi : (renderRootStmts r).get? i = some (GStmt.wireCall t c a))
    (hj : (renderRootStmts r).get? j = some (GStmt.buildCall v b)) :
    i < j := by
  have hR : renderRootStmts r =
      ((r.Services.map fun s => GStmt.ctorCall s.Var s.FacadeCtor)
        ++ (r.Wiring.map fun w => GStmt.wireCall w.To w.Call w.ArgFrom))
      ++ (r.Services.map fun s =>
          [GStmt.buildCall s.Var r.BuildWithRegistry, GStmt.errCheck r.Name s.Var,
            GStmt.assignResult s.Var]).flatten := by
    unfold renderRootStmts
    rw [List.append_assoc]
  have hib : i < ((r.Services.map fun s => GStmt.ctorCall s.Var s.FacadeCtor)
      ++ (r.Wiring.map fun w => GStmt.wireCall w.To w.Call w.ArgFrom)).length := by
    by_contra hge
    push_neg at hge
    rw [hR, List.get?_append_right hge] at hi
    have hmem := List.get?_mem hi
    exact (wire_not_in_build_blocks r _ hmem) t c a rfl
  have hjb : ((r.Services.map fun s => GStmt.ctorCall s.Var s.FacadeCtor)
      ++ (r.Wiring.map fun w => GStmt.wireCall w.To w.Call w.ArgFrom)).length ≤ j := by
    by_contra hlt
    push_neg at hlt
    rw [hR, List.get?_append hlt] at hj
    have hmem := List.get?_mem hj
    exact (build_not_in_ctor_or_wire r _ hmem) v b rfl
  omega

/-- The two-service, one-wire-step root of the specification example, for
the C9 witness. -/
def c9root : GraphRoot :=
  { Name := "BuildApp", BuildWithRegistry := true,
    Services := [⟨"alpha", "NewAlphaV4", "AlphaV4", "Alpha"⟩,
      ⟨"beta", "NewBetaV4", "BetaV4", "Beta"⟩],
    Wiring := [⟨"alpha", "InjectBeta", "beta"⟩] }

/-- Witness for C9: in the rendered BuildApp root the InjectBeta wire-step
(index 2) precedes the first build invocation (index 3). -/
theorem c9_wiring_before_builds_witness :
    (renderRootStmts c9root).get? 2 = some (GStmt.wireCall "alpha" "InjectBeta" "beta") ∧
    (renderRootStmts c9root).get? 3 = some (GStmt.buildCall "alpha" true) ∧
    2 < 3 :=
  ⟨rfl, rfl,
    c9_wiring_before_builds c9root 2 3 "alpha" "InjectBeta" "beta" "alpha" true rfl rfl⟩

end Odi
